import Mathlib

/-!
Verification development for the BDParser repository (src/src/BDParser.cpp,
src/src/BDParser.hpp): a decoder for Blu-ray `.mpls` playlist files.

The C++ code is shallowly embedded as follows.

* `StreamReader` models the `parser::StreamReader` class: an open binary file
  (a list of byte values), a cursor position, and the sticky failure state of
  the underlying `std::ifstream` (once `failbit` is set every subsequent
  operation fails).  The `std::error_code& ec` out-parameter threaded through
  the C++ code is set exactly when an operation fails and is never cleared, so
  at every `if (ec)` check in the code `ec` is nonzero precisely when the
  reader's sticky failure flag is set; the embedding therefore tests the
  `failed` field wherever the code tests `ec`.
* `seekg` on a file-backed `std::ifstream` succeeds even past end-of-file
  (a subsequent read fails instead), so `seek_to`/`skip_bytes` on a healthy
  reader always succeed; reads fail when the requested range is not available.
* Machine integers are modelled as `Nat` with explicit reductions modulo
  `2^32` / `2^64` at the operations where C++ unsigned overflow can occur.
-/

/-- Model of `parser::StreamReader`: byte data of the opened file, the cursor
position, and the sticky stream-failure flag. -/
structure StreamReader where
  data : List Nat
  pos : Nat
  failed : Bool
deriving DecidableEq

/-- Embeds `StreamReader::read_buffer` (lines 60-65): reads `n` bytes at the
cursor, advancing it; a short read sets the sticky failure flag, and on an
already-failed stream the read fails and the buffer keeps its zero-initialized
contents (modelled by returning `[]`, which every caller either ignores after
its `ec` check or reads back as zeros). -/
def read_buffer (r : StreamReader) (n : Nat) : List Nat × StreamReader :=
  if r.failed then ([], r)
  else if r.pos + n ≤ r.data.length then
    ((List.range n).map (fun i => r.data.getD (r.pos + i) 0), { r with pos := r.pos + n })
  else ([], { r with failed := true })

/-- Embeds `StreamReader::read_uint8` (lines 87-91): one byte, 0 on failure. -/
def read_uint8 (r : StreamReader) : Nat × StreamReader :=
  let p := read_buffer r 1
  (p.1.getD 0 0, p.2)

/-- Embeds `StreamReader::read_uint16` (lines 77-85): the C++ loads two bytes
into a native little-endian `uint16_t` and byte-swaps it with `swap_uint16`,
which for file bytes `b0 b1` yields the big-endian value `256*b0 + b1`; on
failure the zero-initialized `value` is returned, i.e. 0. -/
def read_uint16 (r : StreamReader) : Nat × StreamReader :=
  let p := read_buffer r 2
  (256 * p.1.getD 0 0 + p.1.getD 1 0, p.2)

/-- Embeds `StreamReader::read_uint32` (lines 67-75): four bytes loaded
little-endian then reversed by `swap_uint32`, i.e. the big-endian value; 0 on
failure. -/
def read_uint32 (r : StreamReader) : Nat × StreamReader :=
  let p := read_buffer r 4
  (16777216 * p.1.getD 0 0 + 65536 * p.1.getD 1 0 + 256 * p.1.getD 2 0 + p.1.getD 3 0, p.2)

/-- Embeds `StreamReader::skip` (lines 93-98): `seekg(size, cur)` on a healthy
file stream always succeeds (even past end-of-file); on a failed stream it
fails and the position is unchanged. -/
def skip_bytes (r : StreamReader) (n : Nat) : StreamReader :=
  if r.failed then r else { r with pos := r.pos + n }

/-- Embeds `StreamReader::seek` (lines 100-105): absolute `seekg(pos)`,
succeeding on any healthy file stream. -/
def seek_to (r : StreamReader) (p : Nat) : StreamReader :=
  if r.failed then r else { r with pos := p }

/-- Embeds `BDParser::stream_t` (BDParser.hpp lines 105-134).  The C++ enum
fields (`StreamType`, `VideoFormat`, ...) are `enum class` values produced by
`static_cast` from raw bytes and may hold any value of the underlying integer
type, so they are modelled as `Nat` with `Unknown = 0`; all fields are
zero-initialized / empty by the default member initializers. -/
structure stream_t where
  pid : Nat := 0
  type : Nat := 0
  lang_code : List Nat := []
  video_format : Nat := 0
  frame_rate : Nat := 0
  aspect_ratio : Nat := 0
  channel_layout : Nat := 0
  sample_rate : Nat := 0
deriving DecidableEq, BEq

/-- Embeds `parser::StreamFormat` (BDParser.hpp lines 86-90). -/
inductive StreamFormat where
  | Video
  | Audio
  | Subtitles
deriving DecidableEq

/-- Embeds `stream_t::format` (BDParser.hpp lines 119-127). -/
def stream_format (s : stream_t) : StreamFormat :=
  if s.video_format ≠ 0 then StreamFormat.Video
  else if s.channel_layout ≠ 0 then StreamFormat.Audio
  else StreamFormat.Subtitles

/-- The video coding tags grouped by the `switch (s.type)` in
`read_stream_info` (BDParser.cpp lines 174-179): MPEG1_VIDEO 0x01,
MPEG2_VIDEO 0x02, H264_VIDEO 0x1B, H264_MVC_VIDEO 0x20, HEVC_VIDEO 0x24,
VC1_VIDEO 0xEA. -/
def is_video_type (t : Nat) : Bool :=
  t == 0x01 || t == 0x02 || t == 0x1B || t == 0x20 || t == 0x24 || t == 0xEA

/-- The audio coding tags grouped at lines 186-196: MPEG1_AUDIO 0x03,
MPEG2_AUDIO 0x04, LPCM_AUDIO 0x80, AC3_AUDIO 0x81, DTS_AUDIO 0x82,
AC3_TRUE_HD_AUDIO 0x83, AC3_PLUS_AUDIO 0x84, DTS_HD_AUDIO 0x85,
DTS_HD_MASTER_AUDIO 0x86, AC3_PLUS_SECONDARY_AUDIO 0xA1,
DTS_HD_SECONDARY_AUDIO 0xA2.  (MPEG2_AAC 0x0F and MPEG4_AAC 0x11 are declared
in the enum but have no case in the switch.) -/
def is_audio_type (t : Nat) : Bool :=
  t == 0x03 || t == 0x04 || t == 0x80 || t == 0x81 || t == 0x82 || t == 0x83 ||
  t == 0x84 || t == 0x85 || t == 0x86 || t == 0xA1 || t == 0xA2

/-- Embeds the `switch (stream_type)` of `read_stream_info`
(BDParser.cpp lines 136-151), which selects how the PID is encoded:
tag 1 reads the PID directly, tags 2 and 4 skip two bytes first, tag 3 skips
one byte first, and any other tag is a hard decode failure (`return false`).
`value >> 4` and `value & 0xf` on byte values are division and remainder
by 16. -/
def read_pid_shape (stream_type : Nat) (r : StreamReader) : Option (Nat × StreamReader) :=
  if stream_type = 1 then some (read_uint16 r)
  else if stream_type = 2 ∨ stream_type = 4 then some (read_uint16 (skip_bytes r 2))
  else if stream_type = 3 then some (read_uint16 (skip_bytes r 1))
  else none

/-- Embeds the `switch (s.type)` of `read_stream_info`
(BDParser.cpp lines 173-212) together with `read_lang_code` (lines 117-121):
video tags read one attribute byte split into high nibble = video format and
low nibble = frame rate; audio tags read one attribute byte split into
channel layout / sample rate followed by a 3-byte language code; presentation
and interactive graphics (0x90/0x91) read a 3-byte language code; subtitle
(0x92) skips one byte then reads the language code; any other tag value has
no case and decodes nothing. -/
def decode_payload (s : stream_t) (r : StreamReader) : stream_t × StreamReader :=
  if is_video_type s.type then
    let p := read_uint8 r
    ({ s with video_format := p.1 / 16, frame_rate := p.1 % 16 }, p.2)
  else if is_audio_type s.type then
    let p := read_uint8 r
    let q := read_buffer p.2 3
    ({ s with channel_layout := p.1 / 16, sample_rate := p.1 % 16, lang_code := q.1 }, q.2)
  else if s.type = 0x90 ∨ s.type = 0x91 then
    let q := read_buffer r 3
    ({ s with lang_code := q.1 }, q.2)
  else if s.type = 0x92 then
    let q := read_buffer (skip_bytes r 1) 3
    ({ s with lang_code := q.1 }, q.2)
  else (s, r)

/-- Embeds `read_stream_info` (BDParser.cpp lines 123-223).  Returns `none`
where the C++ returns `false`, and on success the updated stream set together
with the final reader state.  Each `if (ec)` test appears as a test of the
sticky `failed` flag (see the header comment). -/
def read_stream_info (r : StreamReader) (streams : List stream_t) :
    Option (List stream_t × StreamReader) :=
  let p1 := read_uint8 r
  let size := p1.1
  let pos := p1.2.pos
  let p2 := read_uint8 p1.2
  let stream_type := p2.1
  if p2.2.failed then none else
  match read_pid_shape stream_type p2.2 with
  | none => none
  | some pr =>
    let p3 := read_uint8 (seek_to pr.2 (pos + size))
    let size2 := p3.1
    let pos2 := p3.2.pos
    if p3.2.failed then none else
    if streams.any (fun t => t.pid == pr.1) then
      some (streams, seek_to p3.2 (pos2 + size2))
    else
      let p4 := read_uint8 p3.2
      if p4.2.failed then none else
      let p5 := decode_payload { pid := pr.1, type := p4.1 } p4.2
      if p5.2.failed then none else
      some (streams ++ [p5.1], seek_to p5.2 (pos2 + size2))

/-- Iterates `read_stream_info` `k` times over the shared stream set,
embedding the plain `for` loops of `read_stn_info`
(BDParser.cpp lines 249-271), each of which returns `false` as soon as one
record decode fails. -/
def rsi_loop (k : Nat) (r : StreamReader) (streams : List stream_t) :
    Option (List stream_t × StreamReader) :=
  match k with
  | 0 => some (streams, r)
  | k + 1 =>
    match read_stream_info r streams with
    | none => none
    | some q => rsi_loop k q.2 q.1

/-- Embeds the secondary-audio loop of `read_stn_info`
(BDParser.cpp lines 273-291): each iteration decodes one stream record and
then the trailing "Secondary Audio Extra Attributes" block: a 1-byte extra
count, 1 skipped byte, then the extra bytes plus one alignment byte when the
count is odd, with an `ec` check ending the iteration. -/
def sec_audio_loop (k : Nat) (r : StreamReader) (streams : List stream_t) :
    Option (List stream_t × StreamReader) :=
  match k with
  | 0 => some (streams, r)
  | k + 1 =>
    match read_stream_info r streams with
    | none => none
    | some q =>
      let p := read_uint8 q.2
      let r2 := skip_bytes p.2 1
      let r3 := if p.1 ≠ 0 then
          (if p.1 % 2 = 1 then skip_bytes (skip_bytes r2 p.1) 1 else skip_bytes r2 p.1)
        else r2
      if r3.failed then none else sec_audio_loop k r3 q.1

/-- Embeds the secondary-video loop of `read_stn_info`
(BDParser.cpp lines 293-320): like the secondary-audio loop but with two
consecutive extra-attribute blocks (secondary-video extras, then the
associated picture-in-picture graphics extras) before the `ec` check. -/
def sec_video_loop (k : Nat) (r : StreamReader) (streams : List stream_t) :
    Option (List stream_t × StreamReader) :=
  match k with
  | 0 => some (streams, r)
  | k + 1 =>
    match read_stream_info r streams with
    | none => none
    | some q =>
      let p := read_uint8 q.2
      let r2 := skip_bytes p.2 1
      let r3 := if p.1 ≠ 0 then
          (if p.1 % 2 = 1 then skip_bytes (skip_bytes r2 p.1) 1 else skip_bytes r2 p.1)
        else r2
      let p4 := read_uint8 r3
      let r4 := skip_bytes p4.2 1
      let r5 := if p4.1 ≠ 0 then
          (if p4.1 % 2 = 1 then skip_bytes (skip_bytes r4 p4.1) 1 else skip_bytes r4 p4.1)
        else r4
      if r5.failed then none else sec_video_loop k r5 q.1

/-- Embeds `read_stn_info` (BDParser.cpp lines 225-323): skip 4 bytes, read
the seven per-category 1-byte counts, check `ec`, skip 5 bytes (the
`reserve` call is a capacity hint with no observable effect), then run the
per-category record loops in the fixed order video, audio, presentation
graphics + picture-in-picture graphics combined, interactive graphics,
secondary audio, secondary video.  The C++ counter of the combined graphics
loop is a `uint8_t` compared against the `int` sum `num_pg + num_pip_pg`, so
when that sum exceeds 255 the C++ loop never terminates; the embedding runs
the loop `num_pg + num_pip_pg` times, which agrees with the C++ on every
terminating execution. -/
def read_stn_info (r : StreamReader) (streams : List stream_t) :
    Option (List stream_t × StreamReader) :=
  let r1 := skip_bytes r 4
  let p1 := read_uint8 r1
  let p2 := read_uint8 p1.2
  let p3 := read_uint8 p2.2
  let p4 := read_uint8 p3.2
  let p5 := read_uint8 p4.2
  let p6 := read_uint8 p5.2
  let p7 := read_uint8 p6.2
  if p7.2.failed then none else
  let r2 := skip_bytes p7.2 5
  (rsi_loop p1.1 r2 streams).bind fun q1 =>
  (rsi_loop p2.1 q1.2 q1.1).bind fun q2 =>
  (rsi_loop (p3.1 + p7.1) q2.2 q2.1).bind fun q3 =>
  (rsi_loop p4.1 q3.2 q3.1).bind fun q4 =>
  (sec_audio_loop p5.1 q4.2 q4.1).bind fun q5 =>
  sec_video_loop p6.1 q5.2 q5.1

/-- Embeds `pts_t` addition: `pts_t` is `uint64_t` (BDParser.hpp line 12), so
`playlist.duration += ...` accumulates modulo `2^64`. -/
def add64 (a b : Nat) : Nat := (a + b) % 18446744073709551616

/-- Embeds `uint64_t` subtraction `item.end_pts - item.start_pts`
(BDParser.cpp line 396): wraps modulo `2^64`. -/
def sub64 (a b : Nat) : Nat :=
  (a + 18446744073709551616 - b % 18446744073709551616) % 18446744073709551616

/-- Embeds `uint32_t` addition on `playlist_start_address`
(BDParser.cpp lines 362 and 365): wraps modulo `2^32`. -/
def add32 (a b : Nat) : Nat := (a + b) % 4294967296

/-- Embeds `static_cast<pts_t>(20000.0 * raw / 90)`
(BDParser.cpp lines 389-390).  `raw` is a `uint32_t`, so the `double` product
`20000.0 * raw` is at most `20000 * (2^32-1) < 2^53` and hence exact; the
exact quotient `20000*raw/90 = 2000*raw/9` has fractional part `m/9` with
`m ∈ [0,8]`, at distance either 0 or at least `1/9` from the integers, while
the IEEE rounding error of the division is below `2^-13` at this magnitude
(and an integer quotient is returned exactly), so truncating the `double`
quotient to an integer yields exactly the floor `20000 * raw / 90` in `Nat`
division. -/
def convert_pts (raw : Nat) : Nat := 20000 * raw / 90

/-- Embeds `BDParser::playlist_item_t` (BDParser.hpp lines 136-148). -/
structure playlist_item_t where
  file_name : String := ""
  start_pts : Nat := 0
  end_pts : Nat := 0
  start_time : Nat := 0
deriving DecidableEq, BEq

/-- Embeds `BDParser::playlist_t` (BDParser.hpp lines 150-160). -/
structure playlist_t where
  mpls_file_name : String := ""
  duration : Nat := 0
  items : List playlist_item_t := []
  streams : List stream_t := []
deriving DecidableEq

/-- Embeds `playlist_t::operator==` (BDParser.hpp lines 157-159): compares
`duration`, `items` and `streams`, and deliberately not `mpls_file_name`. -/
def playlist_beq (a b : playlist_t) : Bool :=
  a.duration == b.duration && a.items == b.items && a.streams == b.streams

/-- Embeds the clip file name composition of BDParser.cpp lines 372-373:
`std::format("{}/STREAM/{}{}{}{}{}.M2TS", root_path, buffer[0], ..., buffer[4])`
with the five name bytes printed as characters. -/
def clip_file_name (root : String) (name : List Nat) : String :=
  root ++ "/STREAM/" ++ String.mk (name.map Char.ofNat) ++ ".M2TS"

/-- Embeds the `check_version()` macro (BDParser.cpp line 325): the four
version bytes must equal one of the literals `"0300"`, `"0200"`, `"0100"`
(ASCII `0` = 48 etc.). -/
def check_version (v : List Nat) : Bool :=
  v == [48, 51, 48, 48] || v == [48, 50, 48, 48] || v == [48, 49, 48, 48]

/-- Embeds the playlist-item loop body of `BDParser::parse_playlist`
(BDParser.cpp lines 363-419), iterated `number_of_playlist_items` times.
Arguments: the filesystem-existence check used by
`std::filesystem::exists(item.file_name, ec)`, the root path, the
`check_m2ts_files` flag, the reader, the running item offset
`playlist_start_address` (a `uint32_t`), the remaining item count, and the
playlist accumulated so far.  `none` corresponds to `return false`.  Per
iteration: seek to the item offset, read the item's 2-byte length and advance
the offset by `length + 2` (modulo `2^32`), read 9 bytes whose last four must
be `"M2TS"` (77,50,84,83), compose the clip path, optionally require it to
exist, fail on a duplicate clip path within this playlist, read 3 flag bytes
(bit 4 of the second is the multi-angle flag; on a signed `char` the
arithmetic shift `>> 4` still extracts bit 4 of the byte, i.e.
`b / 16 % 2`), read and convert the two 4-byte PTS fields, record
`start_time` as the duration so far and accumulate the duration, skip 12
bytes, handle the multi-angle block (`angle_count` clamped to at least 1, one
reserved byte, then 10 bytes per extra angle — consecutive relative seeks
collapse to one), decode the STN block into the shared stream set, and
append the completed item. -/
def parse_items (fsEx : String → Bool) (root : String) (check_m2ts : Bool) :
    Nat → StreamReader → Nat → playlist_t → Option (playlist_t × StreamReader)
  | 0, r, _, pl => some (pl, r)
  | n + 1, r, psa, pl =>
    let r0 := seek_to r psa
    let p1 := read_uint16 r0
    let psa2 := add32 psa (p1.1 + 2)
    let p2 := read_buffer p1.2 9
    if p2.2.failed ∨ ¬(p2.1.drop 5 == [77, 50, 84, 83]) then none else
    let fname := clip_file_name root (p2.1.take 5)
    if check_m2ts ∧ ¬fsEx fname then none else
    if pl.items.any (fun it => it.file_name == fname) then none else
    let p3 := read_buffer p2.2 3
    if p3.2.failed then none else
    let multi_angle := p3.1.getD 1 0 / 16 % 2 == 1
    let p4 := read_uint32 p3.2
    let p5 := read_uint32 p4.2
    if p5.2.failed then none else
    let item : playlist_item_t :=
      { file_name := fname, start_pts := convert_pts p4.1, end_pts := convert_pts p5.1,
        start_time := pl.duration }
    let dur2 := add64 pl.duration (sub64 item.end_pts item.start_pts)
    let r6 := skip_bytes p5.2 12
    let r7 := if multi_angle then
        (let pa := read_uint8 r6
         skip_bytes (skip_bytes pa.2 1) (10 * (max pa.1 1 - 1)))
      else r6
    if r7.failed then none else
    match read_stn_info r7 pl.streams with
    | none => none
    | some q =>
      parse_items fsEx root check_m2ts n q.2 psa2
        { pl with duration := dur2, streams := q.1, items := pl.items ++ [item] }

/-- Embeds `BDParser::parse_playlist` (BDParser.cpp lines 327-436).  The
opened file is `file` (`none` when `StreamReader`'s constructor fails to open
it); `playlists` is the engine's accumulated `playlists_` member, returned
updated together with the `bool` result.  Steps: `MPLS` signature
(77,80,76,83), version literal, 4-byte `playlist_start_address`, seek there,
skip 6 bytes, read the 2-byte item count, run the item loop starting at
`playlist_start_address + 10`, reject a zero total duration, optionally
reject a playlist structurally equal (`playlist_t::operator==`) to one
already collected, and otherwise append the new playlist. -/
def parse_playlist (fsEx : String → Bool) (playlist_path : String)
    (file : Option (List Nat)) (root_path : String)
    (skip_playlist_duplicate check_m2ts_files : Bool)
    (playlists : List playlist_t) : Bool × List playlist_t :=
  match file with
  | none => (false, playlists)
  | some bytes =>
    let r : StreamReader := { data := bytes, pos := 0, failed := false }
    let p1 := read_buffer r 4
    if p1.2.failed ∨ ¬(p1.1 == [77, 80, 76, 83]) then (false, playlists) else
    let p2 := read_buffer p1.2 4
    if p2.2.failed ∨ ¬check_version p2.1 then (false, playlists) else
    let p3 := read_uint32 p2.2
    if p3.2.failed then (false, playlists) else
    let r4 := skip_bytes (seek_to p3.2 p3.1) 6
    let p5 := read_uint16 r4
    if p5.2.failed then (false, playlists) else
    match parse_items fsEx root_path check_m2ts_files p5.1 p5.2 (add32 p3.1 10)
        { mpls_file_name := playlist_path } with
    | none => (false, playlists)
    | some q =>
      if q.1.duration == 0 then (false, playlists) else
      if skip_playlist_duplicate ∧ playlists.any (fun pl => playlist_beq q.1 pl) then
        (false, playlists)
      else (true, playlists ++ [q.1])

/-- One entry produced by `std::filesystem::directory_iterator` over the
`PLAYLIST` directory (BDParser.cpp line 459): its full path string, whether
it is a regular file, and the bytes it yields when opened (`none` when the
`StreamReader` constructor fails to open it). -/
structure dir_entry where
  path : String
  is_regular : Bool
  contents : Option (List Nat)

/-- The filesystem as seen by `BDParser::parse`: the existence check used for
the four required subpaths (and for `.M2TS` clips), and the iteration order
of the `PLAYLIST` directory. -/
structure fs_model where
  path_exists : String → Bool
  playlist_entries : List dir_entry

/-- Embeds `parser::string::ends_with` (BDParser.cpp lines 8-11). -/
def string_ends_with (s suf : String) : Bool :=
  suf.length ≤ s.length && s.drop (s.length - suf.length) == suf

/-- The four required subpaths checked by `BDParser::parse`
(BDParser.cpp lines 440-445). -/
def check_paths : List String := ["index.bdmv", "CLIPINF", "PLAYLIST", "STREAM"]

/-- The required-path loop of `BDParser::parse` (lines 449-453): every one of
the four subpaths must exist under the root. -/
def required_paths_exist (fs : fs_model) (path : String) : Bool :=
  check_paths.all (fun cp => fs.path_exists (path ++ "/" ++ cp))

/-- Embeds the directory scan of `BDParser::parse` (lines 459-463): for every
entry that is a regular file with an `.mpls` suffix, run `parse_playlist`
(whose `bool` result is discarded there) against the accumuating collection. -/
def scan_entries (fsEx : String → Bool) (root : String)
    (skip_playlist_duplicate check_m2ts_files : Bool) :
    List dir_entry → List playlist_t → List playlist_t
  | [], acc => acc
  | e :: rest, acc =>
    let acc2 := if e.is_regular ∧ string_ends_with e.path ".mpls" then
        (parse_playlist fsEx e.path e.contents root skip_playlist_duplicate
          check_m2ts_files acc).2
      else acc
    scan_entries fsEx root skip_playlist_duplicate check_m2ts_files rest acc2

/-- Insert into a duration-descending list; helper of `sort_by_duration`. -/
def insert_by_duration (p : playlist_t) : List playlist_t → List playlist_t
  | [] => [p]
  | q :: rest =>
    if q.duration < p.duration then p :: q :: rest else q :: insert_by_duration p rest

/-- Models the final `std::sort` with comparator `a.duration > b.duration`
(BDParser.cpp lines 469-471) as a deterministic insertion sort producing a
duration-descending ordering (`std::sort` leaves the order of ties
unspecified; no claim depends on the tie order). -/
def sort_by_duration : List playlist_t → List playlist_t
  | [] => []
  | p :: rest => insert_by_duration p (sort_by_duration rest)

/-- Embeds `BDParser::parse` (BDParser.cpp lines 438-474): if any of the four
required subpaths is missing, return `false` with the previously accumulated
collection untouched; otherwise clear the collection (`playlists_.clear()`),
scan the `PLAYLIST` directory, fail if no playlist decoded, and otherwise
sort by descending duration. -/
def parse (fs : fs_model) (path : String)
    (skip_playlist_duplicate check_m2ts_files : Bool)
    (playlists : List playlist_t) : Bool × List playlist_t :=
  if required_paths_exist fs path = false then (false, playlists)
  else
    let scanned := scan_entries fs.path_exists path skip_playlist_duplicate
      check_m2ts_files fs.playlist_entries []
    if scanned.isEmpty then (false, scanned)
    else (true, sort_by_duration scanned)

/-- The duration contributed by a list of playlist items, accumulated in item
order with the `uint64_t` arithmetic of BDParser.cpp line 396. -/
def items_duration (items : List playlist_item_t) : Nat :=
  items.foldl (fun acc it => add64 acc (sub64 it.end_pts it.start_pts)) 0

/-- The PIDs of a stream set, in order. -/
def stream_pids (streams : List stream_t) : List Nat :=
  streams.map (fun s => s.pid)

/-- The attribute byte consumed by the coding-tag switch of
`read_stream_info` for a record starting at the reader's position: it sits
right after the 1-byte attribute-record length (at `record_start + size`,
i.e. index `pos + 1 + size` with `size` the first length byte) and the 1-byte
coding tag. -/
def attr_byte (r : StreamReader) : Nat :=
  r.data.getD (r.pos + 3 + r.data.getD r.pos 0) 0

/-! ### Basic reader lemmas -/

theorem read_buffer_of_ok (r : StreamReader) (n : Nat) (h : r.failed = false)
    (hn : r.pos + n ≤ r.data.length) :
    read_buffer r n =
      ((List.range n).map (fun i => r.data.getD (r.pos + i) 0), { r with pos := r.pos + n }) := by
  simp [read_buffer, h, hn]

theorem read_buffer_src (r : StreamReader) (n : Nat)
    (h : (read_buffer r n).2.failed = false) :
    r.failed = false ∧ r.pos + n ≤ r.data.length := by
  by_cases hf : r.failed
  · simp [read_buffer, hf] at h
  · by_cases hn : r.pos + n ≤ r.data.length
    · exact ⟨by simpa using hf, hn⟩
    · simp [read_buffer, hf, hn] at h

theorem read_uint8_of_ok (r : StreamReader) (h : r.failed = false)
    (hn : r.pos < r.data.length) :
    read_uint8 r = (r.data.getD r.pos 0, { r with pos := r.pos + 1 }) := by
  simp [read_uint8, read_buffer_of_ok r 1 h (by omega), List.range_succ]

theorem read_uint8_src (r : StreamReader) (h : (read_uint8 r).2.failed = false) :
    r.failed = false ∧ r.pos < r.data.length := by
  have := read_buffer_src r 1 (by simpa [read_uint8] using h)
  exact ⟨this.1, by omega⟩

theorem read_uint16_of_ok (r : StreamReader) (h : r.failed = false)
    (hn : r.pos + 2 ≤ r.data.length) :
    read_uint16 r =
      (256 * r.data.getD r.pos 0 + r.data.getD (r.pos + 1) 0, { r with pos := r.pos + 2 }) := by
  simp [read_uint16, read_buffer_of_ok r 2 h hn, List.range_succ]

theorem read_uint16_src (r : StreamReader) (h : (read_uint16 r).2.failed = false) :
    r.failed = false ∧ r.pos + 2 ≤ r.data.length :=
  read_buffer_src r 2 (by simpa [read_uint16] using h)

theorem read_uint32_of_ok (r : StreamReader) (h : r.failed = false)
    (hn : r.pos + 4 ≤ r.data.length) :
    read_uint32 r =
      (16777216 * r.data.getD r.pos 0 + 65536 * r.data.getD (r.pos + 1) 0 +
        256 * r.data.getD (r.pos + 2) 0 + r.data.getD (r.pos + 3) 0,
       { r with pos := r.pos + 4 }) := by
  simp [read_uint32, read_buffer_of_ok r 4 h hn, List.range_succ]

theorem read_buffer_data (r : StreamReader) (n : Nat) :
    (read_buffer r n).2.data = r.data := by
  unfold read_buffer
  split <;> [rfl; (split <;> rfl)]

theorem read_uint8_data (r : StreamReader) : (read_uint8 r).2.data = r.data :=
  read_buffer_data r 1

theorem read_uint16_data (r : StreamReader) : (read_uint16 r).2.data = r.data :=
  read_buffer_data r 2

theorem skip_bytes_data (r : StreamReader) (n : Nat) : (skip_bytes r n).data = r.data := by
  unfold skip_bytes; split <;> rfl

theorem skip_bytes_failed (r : StreamReader) (n : Nat) :
    (skip_bytes r n).failed = r.failed := by
  unfold skip_bytes; split <;> rfl

theorem seek_to_failed (r : StreamReader) (p : Nat) : (seek_to r p).failed = r.failed := by
  unfold seek_to; split <;> rfl

theorem seek_to_of_ok (r : StreamReader) (p : Nat) (h : r.failed = false) :
    seek_to r p = { r with pos := p } := by
  simp [seek_to, h]

theorem read_pid_shape_data (t : Nat) (r : StreamReader) (pr : Nat × StreamReader)
    (h : read_pid_shape t r = some pr) : pr.2.data = r.data := by
  unfold read_pid_shape at h
  split at h
  · cases h
    exact read_uint16_data r
  · split at h
    · cases h
      rw [read_uint16_data, skip_bytes_data]
    · split at h
      · cases h
        rw [read_uint16_data, skip_bytes_data]
      · cases h

theorem decode_payload_pid (s : stream_t) (r : StreamReader) :
    (decode_payload s r).1.pid = s.pid := by
  unfold decode_payload
  split
  · rfl
  · split
    · rfl
    · split
      · rfl
      · split <;> rfl

/-- Structural dichotomy of one stream-record decode: a successful
`read_stream_info` either leaves the stream set unchanged (the known-PID
skip) or appends exactly one record whose PID is not yet present. -/
theorem read_stream_info_append (r : StreamReader) (streams streams' : List stream_t)
    (r' : StreamReader) (h : read_stream_info r streams = some (streams', r')) :
    streams' = streams ∨ ∃ s, streams' = streams ++ [s] ∧ s.pid ∉ stream_pids streams := by
  simp only [read_stream_info] at h
  split at h
  · exact Option.noConfusion h
  split at h
  · exact Option.noConfusion h
  next pr heq =>
    split at h
    · exact Option.noConfusion h
    split at h
    · left
      exact (Prod.mk.injEq _ _ _ _ ▸ Option.some.injEq _ _ ▸ h).1.symm
    next hany =>
      split at h
      · exact Option.noConfusion h
      split at h
      · exact Option.noConfusion h
      right
      refine ⟨_, (congrArg Prod.fst (Option.some.inj h)).symm, ?_⟩
      rw [decode_payload_pid]
      intro hmem
      simp only [stream_pids, List.mem_map] at hmem
      obtain ⟨t, ht, hpid⟩ := hmem
      exact hany (List.any_eq_true.2 ⟨t, ht, by simp_all⟩)

/-- C1: length-directed resync.  For every stream-information record whose
decode succeeds, and for every coding-format tag value (including tags the
decoder does not interpret), the cursor position on return equals the start
of the attribute sub-record — the position immediately after its 1-byte
length field, which for a record starting at `r.pos` is
`r.pos + 2 + data[r.pos]` — plus that sub-record's declared length byte, so
the following record is decoded from the correct offset regardless of how
many payload bytes were actually consumed. -/
theorem claim_c1_length_resync (r : StreamReader) (streams streams' : List stream_t)
    (r' : StreamReader)
    (h : read_stream_info r streams = some (streams', r')) :
    r'.pos = (r.pos + 2 + r.data.getD r.pos 0) +
      r.data.getD (r.pos + 1 + r.data.getD r.pos 0) 0 := by
  simp only [read_stream_info] at h
  split at h
  · exact Option.noConfusion h
  next hok2 =>
    have hf2 : (read_uint8 (read_uint8 r).2).2.failed = false := by simpa using hok2
    obtain ⟨hf1, hlt2⟩ := read_uint8_src _ hf2
    obtain ⟨hf0, hlt1⟩ := read_uint8_src _ hf1
    have e1 : read_uint8 r = (r.data.getD r.pos 0, { r with pos := r.pos + 1 }) :=
      read_uint8_of_ok r hf0 hlt1
    rw [e1] at hlt2
    have hlt2a : r.pos + 1 < r.data.length := by simpa using hlt2
    have e2 : read_uint8 ({ r with pos := r.pos + 1 } : StreamReader) =
        (r.data.getD (r.pos + 1) 0, { r with pos := r.pos + 1 + 1 }) := by
      have := read_uint8_of_ok ({ r with pos := r.pos + 1 } : StreamReader)
        (by simpa using hf0) (by simpa using hlt2a)
      simpa using this
    rw [e1, e2] at h
    dsimp only at h
    split at h
    · exact Option.noConfusion h
    next pr heq =>
      split at h
      · exact Option.noConfusion h
      next hok3 =>
        rw [Bool.not_eq_true] at hok3
        obtain ⟨hfseek, hlt3⟩ := read_uint8_src _ hok3
        have hfpr : pr.2.failed = false := by
          rw [seek_to_failed] at hfseek; exact hfseek
        have hdata : pr.2.data = r.data := by
          have := read_pid_shape_data _ _ pr heq
          simpa using this
        rw [seek_to_of_ok _ _ hfpr] at hlt3
        have hlt3a : r.pos + 1 + r.data.getD r.pos 0 < r.data.length := by
          simpa [hdata] using hlt3
        have e3 : read_uint8 ({ pr.2 with pos := r.pos + 1 + r.data.getD r.pos 0 } : StreamReader) =
            (r.data.getD (r.pos + 1 + r.data.getD r.pos 0) 0,
             { pr.2 with pos := r.pos + 1 + r.data.getD r.pos 0 + 1 }) := by
          have := read_uint8_of_ok ({ pr.2 with pos := r.pos + 1 + r.data.getD r.pos 0 } : StreamReader)
            (by simpa using hfpr) (by simpa [hdata] using hlt3a)
          simpa [hdata] using this
        rw [seek_to_of_ok _ _ hfpr, e3] at h
        dsimp only at h
        split at h
        · have hr2 := congrArg Prod.snd (Option.some.inj h)
          dsimp only at hr2
          rw [seek_to_of_ok _ _ (by simpa using hfpr)] at hr2
          rw [← hr2]
          dsimp only
          omega
        next hnotany =>
          split at h
          · exact Option.noConfusion h
          next hok4 =>
            split at h
            · exact Option.noConfusion h
            next hok5 =>
              rw [Bool.not_eq_true] at hok5
              have hr2 := congrArg Prod.snd (Option.some.inj h)
              dsimp only at hr2
              rw [seek_to_of_ok _ _ hok5] at hr2
              rw [← hr2]
              dsimp only
              omega

/-- Witness for C1: a concrete record (length 3, PID-shape tag 1, PID 16,
attribute sub-record of length 2 with the uninterpreted coding tag 255)
decodes successfully and leaves the cursor at offset 7 = (0+2+3)+2. -/
theorem claim_c1_witness :
    (({ data := [3, 1, 0, 16, 2, 255], pos := 7, failed := false } : StreamReader)).pos =
      (({ data := [3, 1, 0, 16, 2, 255], pos := 0, failed := false } : StreamReader).pos + 2 +
          ([3, 1, 0, 16, 2, 255] : List Nat).getD 0 0) +
        ([3, 1, 0, 16, 2, 255] : List Nat).getD
          (0 + 1 + ([3, 1, 0, 16, 2, 255] : List Nat).getD 0 0) 0 :=
  claim_c1_length_resync { data := [3, 1, 0, 16, 2, 255], pos := 0, failed := false } []
    [{ pid := 16, type := 255 }] { data := [3, 1, 0, 16, 2, 255], pos := 7, failed := false }
    (by decide)

/-- C2: failure propagation.  A successful `read_stream_info` run ends with a
non-failed reader — since the stream-failure flag is sticky, no underlying
read or seek can have failed during the call, i.e. any I/O failure forces the
`false` return — and the only way it reports success without appending a
record (without decoding the attribute payload) is that the PID read for the
record is already present in the accumulating stream set. -/
theorem claim_c2_failure_propagation (r : StreamReader) (streams streams' : List stream_t)
    (r' : StreamReader)
    (h : read_stream_info r streams = some (streams', r')) :
    r'.failed = false ∧
    (streams' = streams →
      ∃ s, s ∈ streams ∧
        (read_pid_shape (r.data.getD (r.pos + 1) 0) { r with pos := r.pos + 2 }).map
          (fun q => q.1) = some s.pid) := by
  simp only [read_stream_info] at h
  split at h
  · exact Option.noConfusion h
  next hok2 =>
    have hf2 : (read_uint8 (read_uint8 r).2).2.failed = false := by simpa using hok2
    obtain ⟨hf1, hlt2⟩ := read_uint8_src _ hf2
    obtain ⟨hf0, hlt1⟩ := read_uint8_src _ hf1
    have e1 : read_uint8 r = (r.data.getD r.pos 0, { r with pos := r.pos + 1 }) :=
      read_uint8_of_ok r hf0 hlt1
    rw [e1] at hlt2
    have hlt2a : r.pos + 1 < r.data.length := by simpa using hlt2
    have e2 : read_uint8 ({ r with pos := r.pos + 1 } : StreamReader) =
        (r.data.getD (r.pos + 1) 0, { r with pos := r.pos + 1 + 1 }) := by
      have := read_uint8_of_ok ({ r with pos := r.pos + 1 } : StreamReader)
        (by simpa using hf0) (by simpa using hlt2a)
      simpa using this
    rw [e1, e2] at h
    dsimp only at h
    split at h
    · exact Option.noConfusion h
    next pr heq =>
      have heq2 : read_pid_shape (r.data.getD (r.pos + 1) 0)
          ({ r with pos := r.pos + 2 } : StreamReader) = some pr := heq
      split at h
      · exact Option.noConfusion h
      next hok3 =>
        rw [Bool.not_eq_true] at hok3
        obtain ⟨hfseek, hlt3⟩ := read_uint8_src _ hok3
        have hfpr : pr.2.failed = false := by
          rw [seek_to_failed] at hfseek; exact hfseek
        split at h
        next hany =>
          have hr2 := congrArg Prod.snd (Option.some.inj h)
          have hs := congrArg Prod.fst (Option.some.inj h)
          dsimp only at hr2 hs
          constructor
          · rw [← hr2, seek_to_failed]
            exact hok3
          · intro _
            obtain ⟨t, ht, htpid⟩ := List.any_eq_true.1 hany
            refine ⟨t, ht, ?_⟩
            rw [heq2]
            show some pr.1 = some t.pid
            have : t.pid = pr.1 := by simpa using htpid
            exact congrArg some this.symm
        next hnotany =>
          split at h
          · exact Option.noConfusion h
          next hok4 =>
            split at h
            · exact Option.noConfusion h
            next hok5 =>
              rw [Bool.not_eq_true] at hok5
              have hr2 := congrArg Prod.snd (Option.some.inj h)
              have hs := congrArg Prod.fst (Option.some.inj h)
              dsimp only at hr2 hs
              constructor
              · rw [← hr2, seek_to_failed]
                exact hok5
              · intro heqss
                rw [← hs] at heqss
                have hlen := congrArg List.length heqss
                simp at hlen

/-- Witness for C2: the concrete record of C1's shape decoded against a
stream set that already contains PID 16 succeeds via the dedup path with a
healthy final reader, and the known-PID existential is realized by that
entry. -/
theorem claim_c2_witness :
    (({ data := [3, 1, 0, 16, 2, 255], pos := 7, failed := false } : StreamReader)).failed = false ∧
    (([{ pid := 16 }] : List stream_t) = [{ pid := 16 }] →
      ∃ s, s ∈ ([{ pid := 16 }] : List stream_t) ∧
        (read_pid_shape (([3, 1, 0, 16, 2, 255] : List Nat).getD (0 + 1) 0)
            ({ data := [3, 1, 0, 16, 2, 255], pos := 0 + 2, failed := false } : StreamReader)).map
          (fun q => q.1) = some s.pid) :=
  claim_c2_failure_propagation { data := [3, 1, 0, 16, 2, 255], pos := 0, failed := false }
    [{ pid := 16 }] [{ pid := 16 }] { data := [3, 1, 0, 16, 2, 255], pos := 7, failed := false }
    (by decide)

/-- C6: PID-shape dispatch.  The 1-byte `stream_type` tag selects the PID
encoding: tag 1 reads the PID as the next big-endian u16 directly; tags 2 and
4 skip 2 bytes then read the PID; tag 3 skips 1 byte then reads the PID; any
other tag value makes the PID-shape switch, and with it the whole record
decode in `read_stream_info`, fail. -/
theorem claim_c6_pid_shape_dispatch (r : StreamReader) (streams : List stream_t) (t : Nat)
    (hfail : r.failed = false) :
    (t = 1 → r.pos + 2 ≤ r.data.length →
      read_pid_shape t r =
        some (256 * r.data.getD r.pos 0 + r.data.getD (r.pos + 1) 0,
          { r with pos := r.pos + 2 })) ∧
    (t = 2 ∨ t = 4 → r.pos + 4 ≤ r.data.length →
      read_pid_shape t r =
        some (256 * r.data.getD (r.pos + 2) 0 + r.data.getD (r.pos + 3) 0,
          { r with pos := r.pos + 4 })) ∧
    (t = 3 → r.pos + 3 ≤ r.data.length →
      read_pid_shape t r =
        some (256 * r.data.getD (r.pos + 1) 0 + r.data.getD (r.pos + 2) 0,
          { r with pos := r.pos + 3 })) ∧
    (t ≠ 1 ∧ t ≠ 2 ∧ t ≠ 3 ∧ t ≠ 4 →
      read_pid_shape t r = none ∧
      (r.data.getD (r.pos + 1) 0 = t → read_stream_info r streams = none)) := by
  refine ⟨?_, ?_, ?_, ?_⟩
  · intro ht hn
    subst ht
    rw [read_pid_shape, if_pos rfl, read_uint16_of_ok r hfail hn]
  · intro ht hn
    have hsk : skip_bytes r 2 = { r with pos := r.pos + 2 } := by simp [skip_bytes, hfail]
    have hrw : read_uint16 (skip_bytes r 2) =
        (256 * r.data.getD (r.pos + 2) 0 + r.data.getD (r.pos + 3) 0,
          { r with pos := r.pos + 4 }) := by
      rw [hsk, read_uint16_of_ok _ (by simpa using hfail) (by simpa using hn)]
    rcases ht with ht | ht <;> subst ht <;>
      · simp only [read_pid_shape]
        rw [hrw]
        norm_num
  · intro ht hn
    subst ht
    have hsk : skip_bytes r 1 = { r with pos := r.pos + 1 } := by simp [skip_bytes, hfail]
    have hrw : read_uint16 (skip_bytes r 1) =
        (256 * r.data.getD (r.pos + 1) 0 + r.data.getD (r.pos + 2) 0,
          { r with pos := r.pos + 3 }) := by
      rw [hsk, read_uint16_of_ok _ (by simpa using hfail) (by simpa using hn)]
    simp only [read_pid_shape]
    rw [hrw]
    norm_num
  · intro ⟨h1, h2, h3, h4⟩
    have hshape : ∀ r2 : StreamReader, read_pid_shape t r2 = none := by
      intro r2
      simp only [read_pid_shape]
      rw [if_neg h1, if_neg (show ¬(t = 2 ∨ t = 4) by omega), if_neg h3]
    refine ⟨hshape r, ?_⟩
    intro hbyte
    simp only [read_stream_info]
    split
    · rfl
    next hok2 =>
      have hf2 : (read_uint8 (read_uint8 r).2).2.failed = false := by simpa using hok2
      obtain ⟨hf1, hlt2⟩ := read_uint8_src _ hf2
      obtain ⟨hf0, hlt1⟩ := read_uint8_src _ hf1
      have e1 : read_uint8 r = (r.data.getD r.pos 0, { r with pos := r.pos + 1 }) :=
        read_uint8_of_ok r hf0 hlt1
      rw [e1] at hlt2
      have hlt2a : r.pos + 1 < r.data.length := by simpa using hlt2
      have e2 : read_uint8 ({ r with pos := r.pos + 1 } : StreamReader) =
          (r.data.getD (r.pos + 1) 0, { r with pos := r.pos + 1 + 1 }) := by
        have := read_uint8_of_ok ({ r with pos := r.pos + 1 } : StreamReader)
          (by simpa using hf0) (by simpa using hlt2a)
        simpa using this
      rw [e1, e2]
      dsimp only
      rw [hbyte, hshape]

/-- Witness for C6: on the concrete two-byte input `[0,16]`, shape tag 1
reads PID 16 directly, and an out-of-range tag (9) makes the shape switch
return the hard failure. -/
theorem claim_c6_witness :
    read_pid_shape 1 ({ data := [0, 16], pos := 0, failed := false } : StreamReader) =
      some (256 * ([0, 16] : List Nat).getD 0 0 + ([0, 16] : List Nat).getD (0 + 1) 0,
        { data := [0, 16], pos := 0 + 2, failed := false }) ∧
    read_pid_shape 9 ({ data := [0, 16], pos := 0, failed := false } : StreamReader) = none := by
  constructor
  · exact (claim_c6_pid_shape_dispatch { data := [0, 16], pos := 0, failed := false } [] 1
      rfl).1 rfl (by decide)
  · exact ((claim_c6_pid_shape_dispatch { data := [0, 16], pos := 0, failed := false } [] 9
      rfl).2.2.2 (by decide)).1

/-- One successful record decode preserves PID-distinctness of the stream
set. -/
theorem stream_pids_nodup_step (r : StreamReader) (streams streams' : List stream_t)
    (r' : StreamReader) (h : read_stream_info r streams = some (streams', r'))
    (hnd : (stream_pids streams).Nodup) : (stream_pids streams').Nodup := by
  rcases read_stream_info_append r streams streams' r' h with he | ⟨s, he, hmem⟩
  · exact he ▸ hnd
  · subst he
    have hsp : stream_pids (streams ++ [s]) = stream_pids streams ++ [s.pid] := by
      simp [stream_pids]
    rw [hsp, List.nodup_append]
    refine ⟨hnd, List.nodup_singleton _, ?_⟩
    intro a ha hb
    rw [List.mem_singleton] at hb
    exact hmem (hb ▸ ha)

/-- The plain record loops preserve PID-distinctness. -/
theorem rsi_loop_nodup (k : Nat) :
    ∀ r streams res, rsi_loop k r streams = some res →
      (stream_pids streams).Nodup → (stream_pids res.1).Nodup := by
  induction k with
  | zero =>
    intro r streams res h hnd
    cases h
    exact hnd
  | succ k ih =>
    intro r streams res h hnd
    simp only [rsi_loop] at h
    cases hq : read_stream_info r streams with
    | none => rw [hq] at h; exact Option.noConfusion h
    | some q =>
      rw [hq] at h
      exact ih q.2 q.1 res h (stream_pids_nodup_step _ _ _ _ hq hnd)

/-- The secondary-audio loop preserves PID-distinctness. -/
theorem sec_audio_loop_nodup (k : Nat) :
    ∀ r streams res, sec_audio_loop k r streams = some res →
      (stream_pids streams).Nodup → (stream_pids res.1).Nodup := by
  induction k with
  | zero =>
    intro r streams res h hnd
    cases h
    exact hnd
  | succ k ih =>
    intro r streams res h hnd
    simp only [sec_audio_loop] at h
    cases hq : read_stream_info r streams with
    | none => rw [hq] at h; exact Option.noConfusion h
    | some q =>
      rw [hq] at h
      dsimp only at h
      repeat' split at h
      all_goals
        first
          | exact Option.noConfusion h
          | exact ih _ q.1 res h (stream_pids_nodup_step _ _ _ _ hq hnd)

/-- The secondary-video loop preserves PID-distinctness. -/
theorem sec_video_loop_nodup (k : Nat) :
    ∀ r streams res, sec_video_loop k r streams = some res →
      (stream_pids streams).Nodup → (stream_pids res.1).Nodup := by
  induction k with
  | zero =>
    intro r streams res h hnd
    cases h
    exact hnd
  | succ k ih =>
    intro r streams res h hnd
    simp only [sec_video_loop] at h
    cases hq : read_stream_info r streams with
    | none => rw [hq] at h; exact Option.noConfusion h
    | some q =>
      rw [hq] at h
      dsimp only at h
      repeat' split at h
      all_goals
        first
          | exact Option.noConfusion h
          | exact ih _ q.1 res h (stream_pids_nodup_step _ _ _ _ hq hnd)

/-- The whole stream-number-table decode preserves PID-distinctness. -/
theorem read_stn_info_nodup (r : StreamReader) (streams : List stream_t)
    (res : List stream_t × StreamReader) (h : read_stn_info r streams = some res)
    (hnd : (stream_pids streams).Nodup) : (stream_pids res.1).Nodup := by
  simp only [read_stn_info] at h
  split at h
  · exact Option.noConfusion h
  obtain ⟨q1, hq1, h⟩ := Option.bind_eq_some.1 h
  obtain ⟨q2, hq2, h⟩ := Option.bind_eq_some.1 h
  obtain ⟨q3, hq3, h⟩ := Option.bind_eq_some.1 h
  obtain ⟨q4, hq4, h⟩ := Option.bind_eq_some.1 h
  obtain ⟨q5, hq5, h⟩ := Option.bind_eq_some.1 h
  exact sec_video_loop_nodup _ _ _ _ h
    (sec_audio_loop_nodup _ _ _ _ hq5
      (rsi_loop_nodup _ _ _ _ hq4
        (rsi_loop_nodup _ _ _ _ hq3
          (rsi_loop_nodup _ _ _ _ hq2
            (rsi_loop_nodup _ _ _ _ hq1 hnd)))))

/-- Appending one item extends the accumulated duration by that item's
(wrapping) PTS difference. -/
theorem items_duration_append (l : List playlist_item_t) (it : playlist_item_t) :
    items_duration (l ++ [it]) =
      add64 (items_duration l) (sub64 it.end_pts it.start_pts) := by
  simp [items_duration, List.foldl_append]

/-- Appending an item whose `start_time` is the accumulated duration
preserves the prefix-sum property of `start_time`. -/
theorem start_time_step (l : List playlist_item_t) (it : playlist_item_t)
    (h2 : ∀ i (hi : i < l.length), (l.get ⟨i, hi⟩).start_time = items_duration (l.take i))
    (hst : it.start_time = items_duration l) :
    ∀ i (hi : i < (l ++ [it]).length),
      ((l ++ [it]).get ⟨i, hi⟩).start_time = items_duration ((l ++ [it]).take i) := by
  intro i hi
  rcases Nat.lt_or_ge i l.length with hlt | hge
  · rw [List.get_append i hlt, List.take_append_of_le_length (Nat.le_of_lt hlt)]
    exact h2 i hlt
  · have hieq : i = l.length := by
      simp only [List.length_append, List.length_singleton] at hi
      omega
    subst hieq
    rw [List.take_append_of_le_length (Nat.le_refl _), List.take_length]
    have hg : (l ++ [it]).get ⟨l.length, hi⟩ = it := List.get_of_append rfl rfl
    rw [hg, hst]

/-- Appending an item whose clip path passed the duplicate check preserves
distinctness of the clip paths. -/
theorem names_nodup_step (l : List playlist_item_t) (it : playlist_item_t)
    (h3 : (l.map (fun x => x.file_name)).Nodup)
    (hnew : l.any (fun x => x.file_name == it.file_name) = false) :
    ((l ++ [it]).map (fun x => x.file_name)).Nodup := by
  rw [List.map_append, List.nodup_append]
  refine ⟨h3, List.nodup_singleton _, ?_⟩
  intro a ha hb
  simp only [List.map_singleton, List.mem_singleton] at hb
  subst hb
  obtain ⟨x, hx, hfn⟩ := List.mem_map.1 ha
  have hx2 : l.any (fun y => y.file_name == it.file_name) = true :=
    List.any_eq_true.2 ⟨x, hx, by simp [hfn]⟩
  rw [hnew] at hx2
  exact Bool.noConfusion hx2

/-- Loop invariant of the playlist-item loop: every successful pass through
`parse_items` preserves (1) duration = accumulated item durations,
(2) each item's `start_time` = duration of the preceding items,
(3) distinctness of the composed clip file names, and
(4) distinctness of the stream PIDs. -/
theorem parse_items_inv (fsEx : String → Bool) (root : String) (cm : Bool) (n : Nat) :
    ∀ r psa pl res, parse_items fsEx root cm n r psa pl = some res →
      pl.duration = items_duration pl.items →
      (∀ i (hi : i < pl.items.length),
        (pl.items.get ⟨i, hi⟩).start_time = items_duration (pl.items.take i)) →
      (pl.items.map (fun it => it.file_name)).Nodup →
      (stream_pids pl.streams).Nodup →
      res.1.duration = items_duration res.1.items ∧
      (∀ i (hi : i < res.1.items.length),
        (res.1.items.get ⟨i, hi⟩).start_time = items_duration (res.1.items.take i)) ∧
      (res.1.items.map (fun it => it.file_name)).Nodup ∧
      (stream_pids res.1.streams).Nodup := by
  induction n with
  | zero =>
    intro r psa pl res h h1 h2 h3 h4
    cases h
    exact ⟨h1, h2, h3, h4⟩
  | succ n ih =>
    intro r psa pl res h h1 h2 h3 h4
    simp only [parse_items] at h
    split at h
    · exact Option.noConfusion h
    split at h
    · exact Option.noConfusion h
    split at h
    · exact Option.noConfusion h
    next hdup =>
      repeat' split at h
      all_goals try exact Option.noConfusion h
      all_goals
        rename_i q hstn
        refine ih _ _ _ res h ?_ ?_ ?_ ?_
        · dsimp only
          rw [items_duration_append, ← h1]
        · dsimp only
          exact start_time_step pl.items _ h2 (by simpa using h1)
        · dsimp only
          exact names_nodup_step pl.items _ h3 (by simpa using hdup)
        · exact read_stn_info_nodup _ _ _ hstn h4

/-- Outcome characterization of `parse_playlist`: either it fails and returns
the collection unchanged, or it succeeds appending exactly one playlist that
has nonzero duration, duration equal to the accumulated item durations,
prefix-sum `start_time`s, pairwise-distinct clip paths, and pairwise-distinct
stream PIDs. -/
theorem parse_playlist_commit (fsEx : String → Bool) (pp : String)
    (file : Option (List Nat)) (root : String) (sd cm : Bool) (pls : List playlist_t) :
    parse_playlist fsEx pp file root sd cm pls = (false, pls) ∨
    ∃ pl, parse_playlist fsEx pp file root sd cm pls = (true, pls ++ [pl]) ∧
      pl.duration ≠ 0 ∧
      pl.duration = items_duration pl.items ∧
      (∀ i (hi : i < pl.items.length),
        (pl.items.get ⟨i, hi⟩).start_time = items_duration (pl.items.take i)) ∧
      (pl.items.map (fun it => it.file_name)).Nodup ∧
      (stream_pids pl.streams).Nodup := by
  cases file with
  | none => left; rfl
  | some bytes =>
    simp only [parse_playlist]
    split
    · left; rfl
    split
    · left; rfl
    split
    · left; rfl
    split
    · left; rfl
    split
    · left; rfl
    next q hq =>
      split
      next hdur =>
        left; rfl
      next hdur =>
        split
        · left; rfl
        right
        have hinv := parse_items_inv _ _ _ _ _ _ _ _ hq rfl
          (fun i hi => absurd hi (Nat.not_lt_zero i)) (by simp) (by simp [stream_pids])
        exact ⟨q.1, rfl, by simpa using hdur, hinv.1, hinv.2.1, hinv.2.2.1, hinv.2.2.2⟩

/-- C3: PID uniqueness.  (1) Every playlist committed by `parse_playlist` has
pairwise-distinct stream PIDs.  (2) Every successful `read_stream_info` step
either keeps the stream set unchanged or appends one record with a fresh PID,
and hence preserves PID-distinctness.  (3) Whenever the PID read for a record
is already present in the accumulating stream set (and the reads up to the
attribute length byte succeed), `read_stream_info` seeks past the attribute
payload and returns success without appending a new record. -/
theorem claim_c3_pid_uniqueness :
    (∀ fsEx pp file root sd cm pls pls',
      parse_playlist fsEx pp file root sd cm pls = (true, pls') →
      ∃ pl, pls' = pls ++ [pl] ∧ (stream_pids pl.streams).Nodup) ∧
    (∀ r streams streams' r', read_stream_info r streams = some (streams', r') →
      (streams' = streams ∨ ∃ s, streams' = streams ++ [s] ∧ s.pid ∉ stream_pids streams) ∧
      ((stream_pids streams).Nodup → (stream_pids streams').Nodup)) ∧
    (∀ (r : StreamReader) (streams : List stream_t) (pid : Nat) (r3 : StreamReader),
      r.failed = false →
      r.pos + 2 ≤ r.data.length →
      read_pid_shape (r.data.getD (r.pos + 1) 0) { r with pos := r.pos + 2 } = some (pid, r3) →
      r3.failed = false →
      r.pos + 1 + r.data.getD r.pos 0 < r.data.length →
      pid ∈ stream_pids streams →
      read_stream_info r streams = some (streams,
        { r3 with pos := (r.pos + 2 + r.data.getD r.pos 0) +
            r.data.getD (r.pos + 1 + r.data.getD r.pos 0) 0 })) := by
  refine ⟨?_, ?_, ?_⟩
  · intro fsEx pp file root sd cm pls pls' h
    rcases parse_playlist_commit fsEx pp file root sd cm pls with hf | ⟨pl, hs, _, _, _, _, hnd⟩
    · rw [h] at hf
      exact absurd (congrArg Prod.fst hf) (by simp)
    · rw [h] at hs
      have hsnd := congrArg Prod.snd hs
      dsimp only at hsnd
      exact ⟨pl, hsnd, hnd⟩
  · intro r streams streams' r' h
    exact ⟨read_stream_info_append r streams streams' r' h,
      fun hnd => stream_pids_nodup_step r streams streams' r' h hnd⟩
  · intro r streams pid r3 hfail hlen1 hps hr3 hlen2 hmem
    simp only [read_stream_info]
    have e1 : read_uint8 r = (r.data.getD r.pos 0, { r with pos := r.pos + 1 }) :=
      read_uint8_of_ok r hfail (by omega)
    have e2 : read_uint8 ({ r with pos := r.pos + 1 } : StreamReader) =
        (r.data.getD (r.pos + 1) 0, { r with pos := r.pos + 1 + 1 }) := by
      have := read_uint8_of_ok ({ r with pos := r.pos + 1 } : StreamReader)
        (by simpa using hfail) (by simp; omega)
      simpa using this
    rw [e1, e2]
    dsimp only
    rw [if_neg (by simp [hfail])]
    have hps2 : read_pid_shape (r.data.getD (r.pos + 1) 0)
        ({ r with pos := r.pos + 1 + 1 } : StreamReader) = some (pid, r3) := hps
    rw [hps2]
    dsimp only
    rw [seek_to_of_ok _ _ hr3]
    have hdata3 : r3.data = r.data := by
      simpa using read_pid_shape_data _ _ (pid, r3) hps
    have e3 : read_uint8 ({ r3 with pos := r.pos + 1 + r.data.getD r.pos 0 } : StreamReader) =
        (r.data.getD (r.pos + 1 + r.data.getD r.pos 0) 0,
         { r3 with pos := r.pos + 1 + r.data.getD r.pos 0 + 1 }) := by
      have := read_uint8_of_ok ({ r3 with pos := r.pos + 1 + r.data.getD r.pos 0 } : StreamReader)
        (by simpa using hr3) (by simpa [hdata3] using hlen2)
      simpa [hdata3] using this
    rw [e3]
    dsimp only
    rw [if_neg (by simp [hr3])]
    have hany : (streams.any fun t => t.pid == pid) = true := by
      simp only [stream_pids] at hmem
      obtain ⟨s, hs, hpid⟩ := List.mem_map.1 hmem
      exact List.any_eq_true.2 ⟨s, hs, by simp [hpid]⟩
    rw [if_pos hany, seek_to_of_ok _ _ (by simpa using hr3)]
    have harith : r.pos + 1 + r.data.getD r.pos 0 + 1 +
        r.data.getD (r.pos + 1 + r.data.getD r.pos 0) 0 =
        (r.pos + 2 + r.data.getD r.pos 0) +
          r.data.getD (r.pos + 1 + r.data.getD r.pos 0) 0 := by
      omega
    rw [harith]

/-- One synthetic playlist item record: 2-byte length 48, 5-character clip
name, the `M2TS` marker, 3 zero flag bytes, raw start PTS 0, raw end PTS
450000 (bytes 0,6,221,208), 12 skipped bytes, and an STN block with all seven
counts zero. -/
def mpls_item (name5 : List Nat) : List Nat :=
  [0, 48] ++ name5 ++ [77, 50, 84, 83] ++ [0, 0, 0] ++ [0, 0, 0, 0] ++ [0, 6, 221, 208] ++
  List.replicate 12 0 ++ List.replicate 16 0

/-- A synthetic `.mpls` file: `MPLS` signature, version `0100`, playlist
block at offset 16, item count 2, and two items referencing clips `00001`
and `00002`, each spanning raw PTS 0..450000. -/
def mpls_two_items_file : List Nat :=
  [77, 80, 76, 83] ++ [48, 49, 48, 48] ++ [0, 0, 0, 16] ++ [0, 0, 0, 0] ++
  List.replicate 6 0 ++ [0, 2] ++ [0, 0] ++
  mpls_item [48, 48, 48, 48, 49] ++ mpls_item [48, 48, 48, 48, 50]

/-- A well-formed header whose playlist block declares zero items. -/
def mpls_zero_items_file : List Nat :=
  [77, 80, 76, 83] ++ [48, 49, 48, 48] ++ [0, 0, 0, 16] ++ [0, 0, 0, 0] ++
  List.replicate 6 0 ++ [0, 0]

/-- A synthetic `.mpls` file whose two items reference the same clip
`00001`. -/
def mpls_dup_items_file : List Nat :=
  [77, 80, 76, 83] ++ [48, 49, 48, 48] ++ [0, 0, 0, 16] ++ [0, 0, 0, 0] ++
  List.replicate 6 0 ++ [0, 2] ++ [0, 0] ++
  mpls_item [48, 48, 48, 48, 49] ++ mpls_item [48, 48, 48, 48, 49]

/-- The decode of `mpls_two_items_file`: two one-second items are 450000 raw
ticks = 100000000 internal units each. -/
def mpls_two_items_result : playlist_t :=
  { mpls_file_name := "00000.mpls", duration := 200000000,
    items :=
      [{ file_name := "BD/STREAM/00001.M2TS", start_pts := 0, end_pts := 100000000,
         start_time := 0 },
       { file_name := "BD/STREAM/00002.M2TS", start_pts := 0, end_pts := 100000000,
         start_time := 100000000 }],
    streams := [] }

/-- C4: duration round-trip.  Every playlist committed by `parse_playlist`
has `duration` equal to the sum of `(end_pts - start_pts)` over its items
accumulated in item order (with the `uint64_t` wrapping arithmetic of the
code), and each item's `start_time` equals the accumulated duration of the
items before it. -/
theorem claim_c4_duration_roundtrip (fsEx : String → Bool) (pp : String)
    (file : Option (List Nat)) (root : String) (sd cm : Bool)
    (pls pls' : List playlist_t)
    (h : parse_playlist fsEx pp file root sd cm pls = (true, pls')) :
    ∃ pl, pls' = pls ++ [pl] ∧
      pl.duration = items_duration pl.items ∧
      ∀ i (hi : i < pl.items.length),
        (pl.items.get ⟨i, hi⟩).start_time = items_duration (pl.items.take i) := by
  rcases parse_playlist_commit fsEx pp file root sd cm pls with hf | ⟨pl, hs, _, hd, hst, _, _⟩
  · rw [h] at hf
    exact absurd (congrArg Prod.fst hf) (by simp)
  · rw [h] at hs
    have hsnd := congrArg Prod.snd hs
    dsimp only at hsnd
    exact ⟨pl, hsnd, hd, hst⟩

set_option maxRecDepth 100000 in
/-- Witness for C4: the two-item synthetic file decodes successfully and its
committed playlist satisfies the duration round-trip. -/
theorem claim_c4_witness :
    ∃ pl, [mpls_two_items_result] = [] ++ [pl] ∧
      pl.duration = items_duration pl.items ∧
      ∀ i (hi : i < pl.items.length),
        (pl.items.get ⟨i, hi⟩).start_time = items_duration (pl.items.take i) :=
  claim_c4_duration_roundtrip (fun _ => false) "00000.mpls" (some mpls_two_items_file)
    "BD" false false [] [mpls_two_items_result] (by decide)

/-- C7: zero-duration rejection.  `parse_playlist` never commits a playlist
with zero duration: when it returns `false` the collection is unchanged (the
playlist is not added), and when it returns `true` the single committed
playlist has nonzero duration — so a file whose items (possibly none)
accumulate zero duration is rejected and not added. -/
theorem claim_c7_zero_duration_rejected (fsEx : String → Bool) (pp : String)
    (file : Option (List Nat)) (root : String) (sd cm : Bool) (pls : List playlist_t) :
    ((parse_playlist fsEx pp file root sd cm pls).1 = false →
      (parse_playlist fsEx pp file root sd cm pls).2 = pls) ∧
    (∀ pls', parse_playlist fsEx pp file root sd cm pls = (true, pls') →
      ∃ pl, pls' = pls ++ [pl] ∧ pl.duration ≠ 0) := by
  rcases parse_playlist_commit fsEx pp file root sd cm pls with hf | ⟨pl, hs, hd, _⟩
  · constructor
    · intro _
      rw [hf]
    · intro pls' h
      rw [h] at hf
      exact absurd (congrArg Prod.fst hf) (by simp)
  · constructor
    · intro hfst
      rw [hs] at hfst
      exact absurd hfst (by simp)
    · intro pls' h
      rw [h] at hs
      have hsnd := congrArg Prod.snd hs
      dsimp only at hsnd
      exact ⟨pl, hsnd, hd⟩

/-- Witness for C7: a well-formed header declaring zero playlist items (so
the accumulated duration is zero) is rejected, leaving the preexisting
collection unchanged. -/
theorem claim_c7_witness :
    (parse_playlist (fun _ => false) "00000.mpls" (some mpls_zero_items_file)
      "BD" false false [mpls_two_items_result]).2 = [mpls_two_items_result] :=
  (claim_c7_zero_duration_rejected (fun _ => false) "00000.mpls"
    (some mpls_zero_items_file) "BD" false false [mpls_two_items_result]).1 (by decide)

/-- Every successful pass of the item loop appends exactly one item per
declared playlist item: no item, duplicate or otherwise, is ever silently
skipped. -/
theorem parse_items_length (fsEx : String → Bool) (root : String) (cm : Bool) (n : Nat) :
    ∀ r psa pl res, parse_items fsEx root cm n r psa pl = some res →
      res.1.items.length = pl.items.length + n := by
  induction n with
  | zero =>
    intro r psa pl res h
    cases h
    rfl
  | succ n ih =>
    intro r psa pl res h
    simp only [parse_items] at h
    repeat' split at h
    all_goals try exact Option.noConfusion h
    all_goals
      have hlen := ih _ _ _ res h
      simp only [List.length_append, List.length_singleton] at hlen
      omega

/-- C8: atomic duplicate-clip rejection.  `parse_playlist` either fails and
commits nothing — the collection it returns is exactly the one it was given —
or succeeds committing one playlist whose composed clip paths are pairwise
distinct; and the item loop appends exactly one item per declared item, so a
playlist whose two items compose the same clip path can never be committed,
truncated or otherwise. -/
theorem claim_c8_duplicate_clip_atomic (fsEx : String → Bool) (pp : String)
    (file : Option (List Nat)) (root : String) (sd cm : Bool) (pls : List playlist_t) :
    ((parse_playlist fsEx pp file root sd cm pls).1 = false →
      (parse_playlist fsEx pp file root sd cm pls).2 = pls) ∧
    (∀ pls', parse_playlist fsEx pp file root sd cm pls = (true, pls') →
      ∃ pl, pls' = pls ++ [pl] ∧ (pl.items.map (fun it => it.file_name)).Nodup) ∧
    (∀ n r psa pl res, parse_items fsEx root cm n r psa pl = some res →
      res.1.items.length = pl.items.length + n) := by
  refine ⟨?_, ?_, fun n r psa pl res h => parse_items_length fsEx root cm n r psa pl res h⟩
  all_goals
    rcases parse_playlist_commit fsEx pp file root sd cm pls with hf | ⟨pl, hs, _, _, _, hnames, _⟩
  · intro _
    rw [hf]
  · intro hfst
    rw [hs] at hfst
    exact absurd hfst (by simp)
  · intro pls' h
    rw [h] at hf
    exact absurd (congrArg Prod.fst hf) (by simp)
  · intro pls' h
    rw [h] at hs
    have hsnd := congrArg Prod.snd hs
    dsimp only at hsnd
    exact ⟨pl, hsnd, hnames⟩

set_option maxRecDepth 100000 in
/-- Witness for C8: the synthetic file whose two items reference the same
clip `00001` is rejected as a whole — the collection is returned exactly as
given, nothing is truncated or committed. -/
theorem claim_c8_witness :
    (parse_playlist (fun _ => false) "00000.mpls" (some mpls_dup_items_file)
      "BD" false false [mpls_two_items_result]).2 = [mpls_two_items_result] :=
  (claim_c8_duplicate_clip_atomic (fun _ => false) "00000.mpls"
    (some mpls_dup_items_file) "BD" false false [mpls_two_items_result]).1 (by decide)

/-- Witness for C3: decoding the concrete record of C1's shape against a
stream set already containing PID 16 takes the skip path: success, no new
record, cursor resynced past the attribute payload. -/
theorem claim_c3_witness :
    read_stream_info ({ data := [3, 1, 0, 16, 2, 255], pos := 0, failed := false } : StreamReader)
        [{ pid := 16 }] =
      some ([{ pid := 16 }],
        { ({ data := [3, 1, 0, 16, 2, 255], pos := 4, failed := false } : StreamReader) with
            pos := (0 + 2 + ([3, 1, 0, 16, 2, 255] : List Nat).getD 0 0) +
              ([3, 1, 0, 16, 2, 255] : List Nat).getD
                (0 + 1 + ([3, 1, 0, 16, 2, 255] : List Nat).getD 0 0) 0 }) :=
  claim_c3_pid_uniqueness.2.2 { data := [3, 1, 0, 16, 2, 255], pos := 0, failed := false }
    [{ pid := 16 }] 16 { data := [3, 1, 0, 16, 2, 255], pos := 4, failed := false }
    rfl (by decide) (by decide) rfl (by decide) (by decide)

set_option maxRecDepth 100000 in
/-- Counterexample for C5: a synthetic playlist of 2 items, each with raw
start PTS 0 and raw end PTS 450000, decodes successfully — but to
`duration = 200000000` (not `20000000`) and `items[1].start_time = 100000000`
(not `10000000`): 450000 ticks of the 45 kHz clock are 10 seconds, not 1. -/
theorem claim_c5_counterexample :
    parse_playlist (fun _ => false) "00000.mpls" (some mpls_two_items_file)
        "BD" false false [] = (true, [mpls_two_items_result]) ∧
    mpls_two_items_result.duration = 200000000 ∧
    mpls_two_items_result.duration ≠ 20000000 ∧
    (mpls_two_items_result.items.getD 1 { }).start_time = 100000000 ∧
    (mpls_two_items_result.items.getD 1 { }).start_time ≠ 10000000 :=
  ⟨by decide, by decide, by decide, by decide, by decide⟩

set_option maxRecDepth 100000 in
/-- C5 as amended: every raw 32-bit PTS value is converted to 100 ns units as
the scaled multiply `raw * 10000000 / 45000` truncated after the division
(the `double` expression `20000.0 * raw / 90` computes exactly this, see
`convert_pts`); the concrete 2-item playlist with raw start 0 and raw end
450000 per item decodes to `duration = 200000000` and
`items[1].start_time = 100000000`. -/
theorem claim_c5_amended :
    (∀ raw : Nat, convert_pts raw = raw * 10000000 / 45000) ∧
    parse_playlist (fun _ => false) "00000.mpls" (some mpls_two_items_file)
        "BD" false false [] = (true, [mpls_two_items_result]) ∧
    mpls_two_items_result.duration = 200000000 ∧
    (mpls_two_items_result.items.getD 1 { }).start_time = 100000000 := by
  refine ⟨?_, by decide, by decide, by decide⟩
  intro raw
  have h1 : convert_pts raw = 2000 * raw / 9 := by
    rw [convert_pts, show (20000 : Nat) * raw = 10 * (2000 * raw) by ring,
      show (90 : Nat) = 10 * 9 from rfl, Nat.mul_div_mul_left _ _ (by norm_num)]
  have h2 : raw * 10000000 / 45000 = 2000 * raw / 9 := by
    rw [show raw * 10000000 = 5000 * (2000 * raw) by ring,
      show (45000 : Nat) = 5000 * 9 from rfl, Nat.mul_div_mul_left _ _ (by norm_num)]
  rw [h1, h2]

/-- The coding tag is never altered by the payload decode. -/
theorem decode_payload_type (s : stream_t) (r : StreamReader) :
    (decode_payload s r).1.type = s.type := by
  unfold decode_payload
  split
  · rfl
  · split
    · rfl
    · split
      · rfl
      · split <;> rfl

/-- Payload decode of a video coding tag (BDParser.cpp lines 174-185). -/
theorem decode_payload_video (s : stream_t) (r : StreamReader)
    (hv : is_video_type s.type = true) :
    decode_payload s r =
      ({ s with video_format := (read_uint8 r).1 / 16, frame_rate := (read_uint8 r).1 % 16 },
        (read_uint8 r).2) := by
  simp [decode_payload, hv]

/-- Payload decode of an audio coding tag (BDParser.cpp lines 186-203). -/
theorem decode_payload_audio (s : stream_t) (r : StreamReader)
    (hv : is_video_type s.type = false) (ha : is_audio_type s.type = true) :
    decode_payload s r =
      ({ s with
          channel_layout := (read_uint8 r).1 / 16,
          sample_rate := (read_uint8 r).1 % 16,
          lang_code := (read_buffer (read_uint8 r).2 3).1 },
        (read_buffer (read_uint8 r).2 3).2) := by
  simp [decode_payload, hv, ha]

/-- Graphics, subtitle and unrecognized coding tags never touch the video
format or the channel layout (BDParser.cpp lines 204-212 and the absent
default case). -/
theorem decode_payload_other (s : stream_t) (r : StreamReader)
    (hv : is_video_type s.type = false) (ha : is_audio_type s.type = false) :
    (decode_payload s r).1.video_format = s.video_format ∧
    (decode_payload s r).1.channel_layout = s.channel_layout := by
  simp only [decode_payload, hv, ha]
  norm_num
  split
  · exact ⟨rfl, rfl⟩
  · split
    · exact ⟨rfl, rfl⟩
    · exact ⟨rfl, rfl⟩

/-- `stream_t::format` returns Video exactly when the video format is set. -/
theorem stream_format_video_iff (s : stream_t) :
    (stream_format s = StreamFormat.Video ↔ s.video_format ≠ 0) := by
  unfold stream_format
  split
  next h => simp [h]
  next h =>
    split
    next h2 => simp [h]
    next h2 => simp [h]

/-- With no video format set, `stream_t::format` returns Audio exactly when
the channel layout is set. -/
theorem stream_format_audio_iff (s : stream_t) (hvf : s.video_format = 0) :
    (stream_format s = StreamFormat.Audio ↔ s.channel_layout ≠ 0) := by
  unfold stream_format
  rw [if_neg (by simp [hvf])]
  split
  next h => simp [h]
  next h => simp [h]

/-- With neither attribute set, `stream_t::format` returns Subtitles. -/
theorem stream_format_subtitles_of (s : stream_t) (hvf : s.video_format = 0)
    (hcl : s.channel_layout = 0) : stream_format s = StreamFormat.Subtitles := by
  simp [stream_format, hvf, hcl]

/-- Classification of one appended record as a function of its coding tag
and the attribute byte at the reader position. -/
theorem decode_payload_classify (s0 : stream_t) (r42 : StreamReader) (s : stream_t)
    (hvf : s0.video_format = 0) (hcl : s0.channel_layout = 0)
    (hfail : r42.failed = false)
    (hs : (decode_payload s0 r42).1 = s)
    (hok : (decode_payload s0 r42).2.failed = false) :
    (is_video_type s.type = true →
      s.channel_layout = 0 ∧ s.video_format = r42.data.getD r42.pos 0 / 16 ∧
      (stream_format s = StreamFormat.Video ↔ 16 ≤ r42.data.getD r42.pos 0)) ∧
    (is_audio_type s.type = true →
      s.video_format = 0 ∧ s.channel_layout = r42.data.getD r42.pos 0 / 16 ∧
      (stream_format s = StreamFormat.Audio ↔ 16 ≤ r42.data.getD r42.pos 0)) ∧
    (is_video_type s.type = false → is_audio_type s.type = false →
      s.video_format = 0 ∧ s.channel_layout = 0 ∧
      stream_format s = StreamFormat.Subtitles) := by
  have htype : s.type = s0.type := by rw [← hs, decode_payload_type]
  have hdiv : ∀ a : Nat, (a / 16 ≠ 0 ↔ 16 ≤ a) := by
    intro a
    constructor
    · intro h0
      by_contra hlt
      exact h0 (Nat.div_eq_of_lt (by omega))
    · intro hge h0
      have h1 : 1 ≤ a / 16 := (Nat.one_le_div_iff (by norm_num)).2 hge
      omega
  refine ⟨?_, ?_, ?_⟩
  · intro hvid
    have hv0 : is_video_type s0.type = true := htype ▸ hvid
    rw [decode_payload_video s0 r42 hv0] at hs hok
    dsimp only at hs hok
    obtain ⟨_, hlt⟩ := read_uint8_src _ hok
    rw [read_uint8_of_ok r42 hfail hlt] at hs
    dsimp only at hs
    subst hs
    refine ⟨hcl, rfl, ?_⟩
    rw [stream_format_video_iff]
    show (r42.data.getD r42.pos 0 / 16 ≠ 0) ↔ 16 ≤ r42.data.getD r42.pos 0
    exact hdiv _
  · intro haud
    have hv0 : is_video_type s0.type = false := by
      by_cases hcase : is_video_type s0.type = true
      · have haud0 : is_audio_type s0.type = true := htype ▸ haud
        rw [is_video_type] at hcase
        rw [is_audio_type] at haud0
        simp only [Bool.or_eq_true, beq_iff_eq] at hcase haud0
        omega
      · simpa using hcase
    have ha0 : is_audio_type s0.type = true := htype ▸ haud
    rw [decode_payload_audio s0 r42 hv0 ha0] at hs hok
    dsimp only at hs hok
    obtain ⟨hok8, _⟩ := read_buffer_src _ _ hok
    obtain ⟨_, hlt⟩ := read_uint8_src _ hok8
    rw [read_uint8_of_ok r42 hfail hlt] at hs
    dsimp only at hs
    subst hs
    refine ⟨hvf, rfl, ?_⟩
    refine Iff.trans (stream_format_audio_iff _ ?_) ?_
    · exact hvf
    · exact hdiv _
  · intro hv ha
    have hv0 : is_video_type s0.type = false := htype ▸ hv
    have ha0 : is_audio_type s0.type = false := htype ▸ ha
    obtain ⟨h1, h2⟩ := decode_payload_other s0 r42 hv0 ha0
    rw [hs] at h1 h2
    rw [h1, h2]
    exact ⟨hvf, hcl, stream_format_subtitles_of s (by rw [h1, hvf]) (by rw [h2, hcl])⟩

/-- C9 as amended: for every stream record appended by a fully successful
decode, a video coding tag leaves `channel_layout` Unknown and sets
`video_format` to the high nibble of the attribute byte — so
`video_format ≠ Unknown`, and `format()` classifies the record as Video,
exactly when that nibble is nonzero; an audio coding tag symmetrically leaves
`video_format` Unknown and sets `channel_layout` to the high nibble, with
Audio classification exactly when that nibble is nonzero; for
graphics/subtitle and unrecognized tags both stay Unknown and the record is
classified Subtitles. -/
theorem claim_c9_amended (r : StreamReader) (streams : List stream_t) (s : stream_t)
    (r' : StreamReader)
    (h : read_stream_info r streams = some (streams ++ [s], r')) :
    (is_video_type s.type = true →
      s.channel_layout = 0 ∧ s.video_format = attr_byte r / 16 ∧
      (stream_format s = StreamFormat.Video ↔ 16 ≤ attr_byte r)) ∧
    (is_audio_type s.type = true →
      s.video_format = 0 ∧ s.channel_layout = attr_byte r / 16 ∧
      (stream_format s = StreamFormat.Audio ↔ 16 ≤ attr_byte r)) ∧
    (is_video_type s.type = false → is_audio_type s.type = false →
      s.video_format = 0 ∧ s.channel_layout = 0 ∧
      stream_format s = StreamFormat.Subtitles) := by
  simp only [read_stream_info] at h
  split at h
  · exact Option.noConfusion h
  next hok2 =>
    have hf2 : (read_uint8 (read_uint8 r).2).2.failed = false := by simpa using hok2
    obtain ⟨hf1, hlt2⟩ := read_uint8_src _ hf2
    obtain ⟨hf0, hlt1⟩ := read_uint8_src _ hf1
    have e1 : read_uint8 r = (r.data.getD r.pos 0, { r with pos := r.pos + 1 }) :=
      read_uint8_of_ok r hf0 hlt1
    rw [e1] at hlt2
    have hlt2a : r.pos + 1 < r.data.length := by simpa using hlt2
    have e2 : read_uint8 ({ r with pos := r.pos + 1 } : StreamReader) =
        (r.data.getD (r.pos + 1) 0, { r with pos := r.pos + 1 + 1 }) := by
      have := read_uint8_of_ok ({ r with pos := r.pos + 1 } : StreamReader)
        (by simpa using hf0) (by simpa using hlt2a)
      simpa using this
    rw [e1, e2] at h
    dsimp only at h
    split at h
    · exact Option.noConfusion h
    next pr heq =>
      split at h
      · exact Option.noConfusion h
      next hok3 =>
        rw [Bool.not_eq_true] at hok3
        obtain ⟨hfseek, hlt3⟩ := read_uint8_src _ hok3
        have hfpr : pr.2.failed = false := by
          rw [seek_to_failed] at hfseek; exact hfseek
        have hdata : pr.2.data = r.data := by
          have := read_pid_shape_data _ _ pr heq
          simpa using this
        rw [seek_to_of_ok _ _ hfpr] at hlt3
        have hlt3a : r.pos + 1 + r.data.getD r.pos 0 < r.data.length := by
          simpa [hdata] using hlt3
        have e3 : read_uint8 ({ pr.2 with pos := r.pos + 1 + r.data.getD r.pos 0 } : StreamReader) =
            (r.data.getD (r.pos + 1 + r.data.getD r.pos 0) 0,
             { pr.2 with pos := r.pos + 1 + r.data.getD r.pos 0 + 1 }) := by
          have := read_uint8_of_ok
            ({ pr.2 with pos := r.pos + 1 + r.data.getD r.pos 0 } : StreamReader)
            (by simpa using hfpr) (by simpa [hdata] using hlt3a)
          simpa [hdata] using this
        rw [seek_to_of_ok _ _ hfpr, e3] at h
        dsimp only at h
        split at h
        · have hfst := congrArg Prod.fst (Option.some.inj h)
          dsimp only at hfst
          have hlen := congrArg List.length hfst
          simp at hlen
        next hnotany =>
          split at h
          · exact Option.noConfusion h
          next hok4 =>
            rw [Bool.not_eq_true] at hok4
            obtain ⟨hf42, hlt4⟩ := read_uint8_src _ hok4
            have e4 : read_uint8
                ({ pr.2 with pos := r.pos + 1 + r.data.getD r.pos 0 + 1 } : StreamReader) =
                (r.data.getD (r.pos + 1 + r.data.getD r.pos 0 + 1) 0,
                 { pr.2 with pos := r.pos + 1 + r.data.getD r.pos 0 + 1 + 1 }) := by
              have := read_uint8_of_ok
                ({ pr.2 with pos := r.pos + 1 + r.data.getD r.pos 0 + 1 } : StreamReader)
                (by simpa using hfpr) (by simpa [hdata] using hlt4)
              simpa [hdata] using this
            rw [e4] at h
            dsimp only at h
            split at h
            · exact Option.noConfusion h
            next hok5 =>
              rw [Bool.not_eq_true] at hok5
              have hfst := congrArg Prod.fst (Option.some.inj h)
              dsimp only at hfst
              have hsing := List.append_cancel_left hfst
              simp only [List.cons.injEq, and_true] at hsing
              have hcls := decode_payload_classify _ _ s rfl rfl (by simpa using hfpr) hsing hok5
              dsimp only at hcls
              rw [hdata] at hcls
              have hidx : r.pos + 1 + r.data.getD r.pos 0 + 1 + 1 =
                  r.pos + 3 + r.data.getD r.pos 0 := by omega
              rw [hidx] at hcls
              simp only [attr_byte]
              exact hcls

/-- Counterexample for C9: the concrete record with video coding tag 0x1B
(H264) and attribute byte 0 decodes fully successfully, yet the appended
record has `video_format = Unknown` and `format()` classifies it as
Subtitles, not Video. -/
theorem claim_c9_counterexample :
    read_stream_info ({ data := [3, 1, 0, 2, 3, 27, 0], pos := 0, failed := false } : StreamReader)
        [] =
      some ([{ pid := 2, type := 27 }],
        { data := [3, 1, 0, 2, 3, 27, 0], pos := 8, failed := false }) ∧
    is_video_type ({ pid := 2, type := 27 } : stream_t).type = true ∧
    ({ pid := 2, type := 27 } : stream_t).video_format = 0 ∧
    stream_format { pid := 2, type := 27 } = StreamFormat.Subtitles := by
  refine ⟨by decide, by decide, by decide, by decide⟩

/-- Witness for C9 (amended): the same record shape with attribute byte 0x23
appends a video record with `video_format = 2`, `channel_layout = Unknown`,
classified as Video since the high nibble is nonzero. -/
theorem claim_c9_witness :
    ({ pid := 2, type := 27, video_format := 2, frame_rate := 3 } : stream_t).channel_layout = 0 ∧
    ({ pid := 2, type := 27, video_format := 2, frame_rate := 3 } : stream_t).video_format =
      attr_byte { data := [3, 1, 0, 2, 3, 27, 35], pos := 0, failed := false } / 16 ∧
    (stream_format { pid := 2, type := 27, video_format := 2, frame_rate := 3 } =
        StreamFormat.Video ↔
      16 ≤ attr_byte { data := [3, 1, 0, 2, 3, 27, 35], pos := 0, failed := false }) :=
  (claim_c9_amended { data := [3, 1, 0, 2, 3, 27, 35], pos := 0, failed := false } []
    { pid := 2, type := 27, video_format := 2, frame_rate := 3 }
    { data := [3, 1, 0, 2, 3, 27, 35], pos := 8, failed := false } (by decide)).1 (by decide)

/-- C10: frame property of `BDParser::parse`.  If any of the four required
subpaths (`index.bdmv`, `CLIPINF`, `PLAYLIST`, `STREAM`) is missing, `parse`
returns `false` with the previously accumulated playlist collection
unchanged; once all four checks pass, the collection is cleared before any
scanning, so the result is independent of the previous collection. -/
theorem claim_c10_parse_frame (fs : fs_model) (path : String) (sd cm : Bool)
    (pls : List playlist_t) :
    (required_paths_exist fs path = false → parse fs path sd cm pls = (false, pls)) ∧
    (required_paths_exist fs path = true →
      parse fs path sd cm pls = parse fs path sd cm []) := by
  constructor
  · intro hmiss
    simp [parse, hmiss]
  · intro hex
    simp [parse, hex]

/-- Witness for C10: with every path missing, a previous nonempty result
collection is returned unchanged together with `false`. -/
theorem claim_c10_witness :
    parse { path_exists := fun _ => false, playlist_entries := [] } "BD" false false
        [mpls_two_items_result] = (false, [mpls_two_items_result]) :=
  (claim_c10_parse_frame { path_exists := fun _ => false, playlist_entries := [] }
    "BD" false false [mpls_two_items_result]).1 (by decide)
